import Mathlib

/-
Shallow embedding of the core time-management (Clock) and tree-lifecycle (Tree)
code of the Allie chess engine, together with theorems settling the frozen
claims about them.

Conventions of the embedding:
- Machine integers (qint64, int) are modelled as Int; the values involved are
  tiny compared to 2^63, so overflow is not modelled.
- The float arithmetic feeding qRound is modelled over the rationals; the
  quantities involved (milliseconds, small ratios) are far inside the range
  where the two agree.
- Real time is externalised: the elapsed milliseconds of the QElapsedTimer are
  passed as an explicit argument where the code reads them.
- Qt containers and signals (QTimer start/stop) have no observable effect on
  the claims and are not modelled.
-/

namespace Allie

/-- The two sides of a chess game (Chess::Army). -/
inductive Army
  | White
  | Black
deriving DecidableEq, Repr

/-- Direction of change of the evaluation across search iterations. -/
inductive Trend
  | Better
  | Same
  | Worse
deriving DecidableEq, Repr

/-- The slice of SearchInfo that Clock::calculateDeadline reads: the reported
depth, the trend direction and the trend degree. -/
structure SearchInfo where
  depth : Int
  trend : Trend
  trendDegree : ℚ
deriving DecidableEq, Repr

/-- Qt qRound: rounding half away from zero, as int(d + 0.5) for nonnegative d
and int(d - 0.5) for negative d (truncation toward zero equals floor resp.
ceiling on those halves). -/
def qRound (x : ℚ) : Int :=
  if 0 ≤ x then ⌊x + 1/2⌋ else ⌈x - 1/2⌉

/-- State of Clock: the member variables of the C++ class. The QTimer and the
QElapsedTimer are not part of the state; elapsed time is passed explicitly. -/
structure Clock where
  isActive : Bool
  whiteTime : Int
  whiteIncrement : Int
  blackTime : Int
  blackIncrement : Int
  moveTime : Int
  infinite : Bool
  deadline : Int
  trendFactor : Int
  materialScore : Int
  halfMoveNumber : Int
  onTheClock : Army
  info : SearchInfo
deriving DecidableEq, Repr

/-- Clock::Clock member initializer list. Note that m_moveTime is initialized
with the literal false, which converts to the integer 0, not to the -1
sentinel used everywhere else. m_onTheClock and m_info are default-constructed
members whose defaults live outside this excerpt, so they are parameters. -/
def Clock.init (army : Army) (info : SearchInfo) : Clock :=
  { isActive := false
    whiteTime := -1
    whiteIncrement := -1
    blackTime := -1
    blackIncrement := -1
    moveTime := 0
    infinite := false
    deadline := 0
    trendFactor := 0
    materialScore := 0
    halfMoveNumber := 0
    onTheClock := army
    info := info }

/-- Clock::time. -/
def Clock.time (c : Clock) (army : Army) : Int :=
  match army with
  | Army.White => c.whiteTime
  | Army.Black => c.blackTime

/-- Clock::increment. -/
def Clock.increment (c : Clock) (army : Army) : Int :=
  match army with
  | Army.White => c.whiteIncrement
  | Army.Black => c.blackIncrement

/-- Clock::expectedHalfMovesTillEOG as written in the source: the literals 3/8
and 5/4 are divided in integer arithmetic (yielding 0 and 1) before the
conversion to float, exactly as the C++ expression does. -/
def expectedHalfMovesTillEOG (m : Int) : Int :=
  if m < 20 then m + 10
  else if 20 ≤ m ∧ m ≤ 60 then qRound (((Int.tdiv 3 8 : Int) : ℚ) * (m : ℚ)) + 22
  else qRound (((Int.tdiv 5 4 : Int) : ℚ) * (m : ℚ)) - 30

/-- Modelled from the spec: the same heuristic with the rational constants
0.375 and 1.25 the specification states, for comparison with the source
version above. -/
def expectedHalfMovesTillEOG_spec (m : Int) : Int :=
  if m < 20 then m + 10
  else if 20 ≤ m ∧ m ≤ 60 then qRound ((3/8 : ℚ) * (m : ℚ)) + 22
  else qRound ((5/4 : ℚ) * (m : ℚ)) - 30

/-- easingCurve in the default (non-EXPERIMENTAL) build: the identity. -/
def easingCurve (x : ℚ) : ℚ := x

/-- The minimumDepth constant of Clock::calculateDeadline. -/
def minimumDepth : Int := 3

/-- Clock::calculateDeadline. The MoveOverhead option is a parameter. The
isPartial argument of the C++ function is unused there and omitted here. The
final QTimer start is not modelled. Divisions are C++ qint64 divisions,
truncating toward zero (Int.tdiv). -/
def Clock.calculateDeadline (overhead : Int) (c : Clock) : Clock :=
  if c.infinite then
    { c with deadline := -1 }
  else
    let t := c.time c.onTheClock
    let inc := c.increment c.onTheClock
    let maximum := t - overhead
    let ideal := qRound (easingCurve ((Int.tdiv t (expectedHalfMovesTillEOG c.materialScore) + inc : Int) : ℚ))
    let raw := qRound (((Int.tdiv maximum 4 : Int) : ℚ) * c.info.trendDegree)
    let tf0 := if c.info.trend ≠ Trend.Better then c.trendFactor + raw else Int.tdiv c.trendFactor 2
    let tf := max 0 tf0
    let dl : Int :=
      if c.moveTime ≠ -1 then c.moveTime - overhead
      else if t ≠ -1 ∧ minimumDepth ≤ c.info.depth then min maximum ideal
      else if t ≠ -1 then maximum
      else 5000
    { c with trendFactor := tf, deadline := max 0 dl }

/-- Clock::updateDeadline: store the reported SearchInfo and recompute. -/
def Clock.updateDeadline (overhead : Int) (info : SearchInfo) (c : Clock) : Clock :=
  Clock.calculateDeadline overhead { c with info := info }

/-- Clock::startDeadline: mark active, reset the info to a default-constructed
SearchInfo (whose constructor lives outside this excerpt, hence a parameter),
put the given side on the clock and compute the deadline. The timer restart is
not modelled. -/
def Clock.startDeadline (overhead : Int) (fresh : SearchInfo) (army : Army) (c : Clock) : Clock :=
  Clock.calculateDeadline overhead { c with isActive := true, info := fresh, onTheClock := army }

/-- Clock::hasExpired delegates to QElapsedTimer::hasExpired(m_deadline),
which Qt implements as quint64(elapsed()) > quint64(timeout): a negative
timeout is cast to a huge unsigned value and never expires, and the comparison
is strict. Elapsed milliseconds are nonnegative. -/
def Clock.hasExpired (c : Clock) (elapsed : Nat) : Bool :=
  if c.deadline < 0 then false else decide ((elapsed : Int) > c.deadline)

/-- Modelled from the spec: the trend-factor update as the specification words
it, on a clock state, for comparison with what calculateDeadline stores. -/
def trendUpdateSpec (overhead : Int) (c : Clock) : Int :=
  let maximum := c.time c.onTheClock - overhead
  let raw := qRound (((Int.tdiv maximum 4 : Int) : ℚ) * c.info.trendDegree)
  max 0 (if c.info.trend ≠ Trend.Better then c.trendFactor + raw else Int.tdiv c.trendFactor 2)

/-- A concrete clock state used as a base point by several witnesses and
counterexamples: no time control set, nothing special. -/
def baseClock : Clock :=
  { isActive := true
    whiteTime := -1
    whiteIncrement := -1
    blackTime := -1
    blackIncrement := -1
    moveTime := -1
    infinite := false
    deadline := 0
    trendFactor := 0
    materialScore := 0
    halfMoveNumber := 0
    onTheClock := Army.White
    info := { depth := 0, trend := Trend.Same, trendDegree := 0 } }

end Allie

namespace Allie

/-- Claim C1: the claim states the heuristic with the rational constants 0.375
and 1.25, but the source computes 3/8 and 5/4 in integer arithmetic (0 and 1),
so the middle branch is the constant 22 and the top branch is m - 30. At
material score 40 the code returns 22 where the claim demands 37; at 80 it
returns 50 where the claim demands 70. The low branch (m + 10) agrees. -/
theorem clock_expectedHalfMovesTillEOG_integer_division_bug :
    expectedHalfMovesTillEOG 40 = 22 ∧ expectedHalfMovesTillEOG_spec 40 = 37 ∧
    expectedHalfMovesTillEOG 80 = 50 ∧ expectedHalfMovesTillEOG_spec 80 = 70 ∧
    expectedHalfMovesTillEOG 10 = 20 ∧ expectedHalfMovesTillEOG_spec 10 = 20 := by
  have h3 : Int.tdiv 3 8 = 0 := by decide
  have h5 : Int.tdiv 5 4 = 1 := by decide
  refine ⟨?_, ?_, ?_, ?_, ?_, ?_⟩ <;>
    norm_num [expectedHalfMovesTillEOG, expectedHalfMovesTillEOG_spec, qRound, h3, h5]

/-- Claim C2 counterexample: a non-infinite clock with the move-time override
set to 0 and overhead 100 gets deadline 0, not 0 - 100 = -100, because the
computed deadline is clamped below at 0. -/
theorem clock_moveTime_deadline_cex :
    ({ baseClock with moveTime := 0 } : Clock).infinite = false ∧
    (0 : Int) ≤ ({ baseClock with moveTime := 0 } : Clock).moveTime ∧
    (Clock.calculateDeadline 100 { baseClock with moveTime := 0 }).deadline ≠
      ({ baseClock with moveTime := 0 } : Clock).moveTime - 100 := by
  refine ⟨rfl, le_refl 0, ?_⟩
  norm_num [Clock.calculateDeadline, baseClock]

/-- Claim C2 amended: for every non-infinite clock whose move-time override is
set (moveTime at least 0), calculateDeadline stores
max 0 (moveTime - overhead). -/
theorem clock_moveTime_deadline_clamped (ov : Int) (c : Clock)
    (hinf : c.infinite = false) (hmt : 0 ≤ c.moveTime) :
    (Clock.calculateDeadline ov c).deadline = max 0 (c.moveTime - ov) := by
  have h1 : c.moveTime ≠ -1 := by omega
  simp [Clock.calculateDeadline, hinf, h1]

/-- Witness for the amended C2 at moveTime 2000, overhead 100. -/
theorem clock_moveTime_deadline_clamped_witness :
    ({ baseClock with moveTime := 2000 } : Clock).infinite = false ∧
    (0 : Int) ≤ ({ baseClock with moveTime := 2000 } : Clock).moveTime ∧
    (Clock.calculateDeadline 100 { baseClock with moveTime := 2000 }).deadline =
      max 0 (({ baseClock with moveTime := 2000 } : Clock).moveTime - 100) :=
  ⟨rfl, by norm_num [baseClock],
    clock_moveTime_deadline_clamped 100 { baseClock with moveTime := 2000 } rfl
      (by norm_num [baseClock])⟩

end Allie

namespace Allie

/-- Claim C3 counterexample: a non-infinite clock with 200 ms on the clock,
overhead 100 (so time at least overhead) but a move-time override of 1000 ms
computes deadline 900, far outside [0, time - overhead] = [0, 100]: the claim
forgot to exclude the move-time branch. -/
theorem clock_deadline_bounds_cex :
    ({ baseClock with whiteTime := 200, moveTime := 1000 } : Clock).infinite = false ∧
    (100 : Int) ≤ ({ baseClock with whiteTime := 200, moveTime := 1000 } : Clock).time
      ({ baseClock with whiteTime := 200, moveTime := 1000 } : Clock).onTheClock ∧
    ¬ ((Clock.calculateDeadline 100 { baseClock with whiteTime := 200, moveTime := 1000 }).deadline ≤
        ({ baseClock with whiteTime := 200, moveTime := 1000 } : Clock).time
          ({ baseClock with whiteTime := 200, moveTime := 1000 } : Clock).onTheClock - 100) := by
  refine ⟨rfl, by norm_num [baseClock, Clock.time], ?_⟩
  norm_num [Clock.calculateDeadline, baseClock, Clock.time]

/-- Claim C3 amended: for every non-infinite clock whose move-time override is
unset (moveTime = -1), with a nonnegative configured overhead and the
remaining time of the side on the clock at least the overhead, the computed
deadline lies in [0, time - overhead]. -/
theorem clock_deadline_bounds (ov : Int) (c : Clock)
    (hinf : c.infinite = false) (hmt : c.moveTime = -1) (hov : 0 ≤ ov)
    (ht : ov ≤ c.time c.onTheClock) :
    0 ≤ (Clock.calculateDeadline ov c).deadline ∧
    (Clock.calculateDeadline ov c).deadline ≤ c.time c.onTheClock - ov := by
  have ht' : c.time c.onTheClock ≠ -1 := by omega
  have hmt' : ¬ c.moveTime ≠ -1 := by simp [hmt]
  refine ⟨?_, ?_⟩
  · simp only [Clock.calculateDeadline, hinf, Bool.false_eq_true, if_false]
    exact le_max_left 0 _
  · simp only [Clock.calculateDeadline, hinf, Bool.false_eq_true, if_false, hmt', ht',
      ne_eq, not_false_eq_true, if_true, if_false]
    split_ifs with h1
    · exact max_le (by omega) (min_le_left _ _)
    · exact max_le (by omega) (le_refl _)

/-- Witness for the amended C3: 200 ms on the clock, overhead 100, no
move-time override; the computed deadline is within [0, 100]. -/
theorem clock_deadline_bounds_witness :
    0 ≤ (Clock.calculateDeadline 100 { baseClock with whiteTime := 200 }).deadline ∧
    (Clock.calculateDeadline 100 { baseClock with whiteTime := 200 }).deadline ≤
      ({ baseClock with whiteTime := 200 } : Clock).time
        ({ baseClock with whiteTime := 200 } : Clock).onTheClock - 100 :=
  clock_deadline_bounds 100 { baseClock with whiteTime := 200 } rfl rfl
    (by norm_num) (by norm_num [baseClock, Clock.time])

end Allie

namespace Allie

/-- Claim C4 counterexample: at the boundary elapsed = deadline = 5 (with the
deadline nonnegative) hasExpired returns false, because the underlying
QElapsedTimer comparison is strict; the claimed condition elapsed at least
deadline would make it true. -/
theorem clock_hasExpired_boundary_cex :
    ¬ (Clock.hasExpired { baseClock with deadline := 5 } 5 = true ↔
        (({ baseClock with deadline := 5 } : Clock).deadline ≤ (5 : Int) ∧
          (0 : Int) ≤ ({ baseClock with deadline := 5 } : Clock).deadline)) := by
  norm_num [Clock.hasExpired, baseClock]

/-- Claim C4 amended: hasExpired returns true iff the elapsed time strictly
exceeds the deadline and the deadline is nonnegative; and on an infinite
clock calculateDeadline stores deadline -1, so hasExpired is false for every
elapsed value. -/
theorem clock_hasExpired_iff (c : Clock) (e : Nat) :
    (Clock.hasExpired c e = true ↔ (c.deadline < (e : Int) ∧ 0 ≤ c.deadline)) ∧
    (∀ ov : Int, (Clock.calculateDeadline ov { c with infinite := true }).deadline = -1 ∧
      Clock.hasExpired (Clock.calculateDeadline ov { c with infinite := true }) e = false) := by
  refine ⟨?_, fun ov => ⟨?_, ?_⟩⟩
  · unfold Clock.hasExpired
    split_ifs with h
    · simp only [Bool.false_eq_true, false_iff]
      intro hcontra
      omega
    · simp only [decide_eq_true_eq]
      omega
  · simp [Clock.calculateDeadline]
  · simp [Clock.calculateDeadline, Clock.hasExpired]

/-- A SearchInfo reporting a worsening evaluation at full degree. -/
def worseInfo : SearchInfo := { depth := 0, trend := Trend.Worse, trendDegree := 1 }

/-- An infinite clock with 100 ms of time and a worsening trend. -/
def infTrendClock : Clock := { baseClock with infinite := true, whiteTime := 100, info := worseInfo }

/-- A non-infinite clock with 100 ms of time and a worsening trend. -/
def worseTrendClock : Clock := { baseClock with whiteTime := 100, info := worseInfo }

/-- Claim C5 counterexample: on an infinite clock calculateDeadline returns
before the trend update, so with trend Worse and degree 1 on 100 ms of time
the stored trend factor stays 0 while the claimed update would make it 25. -/
theorem clock_trendFactor_infinite_cex :
    (Clock.calculateDeadline 0 infTrendClock).trendFactor ≠ trendUpdateSpec 0 infTrendClock := by
  have h : Int.tdiv 100 4 = 25 := by decide
  norm_num [Clock.calculateDeadline, trendUpdateSpec, infTrendClock, worseInfo, baseClock,
    Clock.time, qRound, h]
  decide

/-- Claim C5 amended: every deadline computation on a NON-infinite clock
updates the accumulated trend factor exactly as the claim describes: with
raw = qRound((maximum tdiv 4) * trendDegree) and maximum = time - overhead,
the factor increases by raw unless the trend is Better, in which case it is
halved, and the result is clamped at 0. startDeadline and updateDeadline both
delegate to calculateDeadline on a state with the same infinite flag, so the
statement covers both entry points. -/
theorem clock_trendFactor_update (ov : Int) (c : Clock) (hinf : c.infinite = false) :
    (Clock.calculateDeadline ov c).trendFactor = trendUpdateSpec ov c := by
  simp [Clock.calculateDeadline, trendUpdateSpec, hinf]

/-- Witness for the amended C5: a non-infinite clock with trend Worse and
degree 1 on 100 ms accumulates the claimed factor. -/
theorem clock_trendFactor_update_witness :
    worseTrendClock.infinite = false ∧
    (Clock.calculateDeadline 0 worseTrendClock).trendFactor = trendUpdateSpec 0 worseTrendClock :=
  ⟨rfl, clock_trendFactor_update 0 worseTrendClock rfl⟩

/-- Claim C6: the computed deadline does not depend on the stored trend
factor: two clock states that differ only in that field produce the same
deadline (the trend contribution is commented out of the deadline sum). -/
theorem clock_deadline_independent_of_trendFactor (ov a b : Int) (c : Clock) :
    (Clock.calculateDeadline ov { c with trendFactor := a }).deadline =
      (Clock.calculateDeadline ov { c with trendFactor := b }).deadline := by
  rcases c with ⟨ia, wt, wi, bt, bi, mt, inf, dl, tf, ms, hm, otc, si⟩
  cases otc <;> by_cases h : inf <;>
    simp [Clock.calculateDeadline, Clock.time, Clock.increment, h]

/-- Claim C9: the constructor does set both sides times and increments to -1,
but initializes m_moveTime with the literal false, i.e. 0, not -1; therefore a
deadline computed before any setter call DOES take the move-time branch,
storing max 0 (0 - overhead) = 0 instead of the 5000 ms fallback that an unset
override would give. -/
theorem clock_ctor_moveTime_bug :
    (Clock.init Army.White { depth := 0, trend := Trend.Same, trendDegree := 0 }).whiteTime = -1 ∧
    (Clock.init Army.White { depth := 0, trend := Trend.Same, trendDegree := 0 }).whiteIncrement = -1 ∧
    (Clock.init Army.White { depth := 0, trend := Trend.Same, trendDegree := 0 }).blackTime = -1 ∧
    (Clock.init Army.White { depth := 0, trend := Trend.Same, trendDegree := 0 }).blackIncrement = -1 ∧
    (Clock.init Army.White { depth := 0, trend := Trend.Same, trendDegree := 0 }).moveTime = 0 ∧
    (Clock.calculateDeadline 100
      (Clock.init Army.White { depth := 0, trend := Trend.Same, trendDegree := 0 })).deadline = 0 := by
  refine ⟨rfl, rfl, rfl, rfl, rfl, ?_⟩
  norm_num [Clock.calculateDeadline, Clock.init]

end Allie

namespace Allie

namespace Tree

/-- A grandchild of the old root as Tree::clearRoot inspects it: its identity
(the node pointer, modelled as a numeric id), the key of its chess position
(Position::isSamePosition is equality of positions, modelled as equality of
keys) and the isTrueTerminal flag. -/
structure GNode where
  nid : Nat
  posKey : Nat
  trueTerminal : Bool
deriving DecidableEq, Repr

/-- The resume test of Tree::clearRoot on one grandchild:
grandChild position isSamePosition(rootGame position) and not isTrueTerminal. -/
def isResumeMatch (target : Nat) (g : GNode) : Bool :=
  g.posKey == target && ! g.trueTerminal

/-- The inner loop of Tree::clearRoot over one child: it breaks at the first
matching grandchild, so only the first match of each child is acted on. -/
def firstMatch (target : Nat) (gs : List GNode) : Option GNode :=
  gs.find? (isResumeMatch target)

/-- Loop state of the resume scan in Tree::clearRoot: the current m_root, the
foundResume flag, and the traces of cache.unlinkNode and setAsRootNode calls
in order. -/
structure ScanState where
  curRoot : Nat
  found : Bool
  unlinks : List Nat
  setAsRootCalls : List Nat
deriving DecidableEq, Repr

/-- The body executed when a matching grandchild is found: setAsRootNode on
it, cache.unlinkNode on the current m_root, then m_root becomes the match. -/
def matchStep (s : ScanState) (g : GNode) : ScanState :=
  { curRoot := g.nid
    found := true
    unlinks := s.unlinks ++ [s.curRoot]
    setAsRootCalls := s.setAsRootCalls ++ [g.nid] }

/-- One iteration of the outer loop of Tree::clearRoot: scan the grandchildren
of one child, acting on the first match if any. -/
def resumeChild (target : Nat) (s : ScanState) (gs : List GNode) : ScanState :=
  match firstMatch target gs with
  | none => s
  | some g => matchStep s g

/-- The whole double loop of Tree::clearRoot over the children of the old
root. Note the break in the source only leaves the INNER loop: the outer loop
keeps scanning and a later match supersedes an earlier one. -/
def resumeScan (target : Nat) (rootId : Nat) (children : List (List GNode)) : ScanState :=
  children.foldl (resumeChild target) { curRoot := rootId, found := false, unlinks := [], setAsRootCalls := [] }

/-- Observable outcome of Tree::clearRoot: the final m_root, the sequence of
cache.unlinkNode calls, and whether cache.resetNodes() ran. -/
structure ClearOutcome where
  newRoot : Option Nat
  unlinks : List Nat
  resetCalled : Bool
deriving DecidableEq, Repr

/-- Tree::clearRoot. The current game position is the target key; the tree is
given by the old root id (if any) and the grandchildren of each of its
children. cache.resetNodes() runs unconditionally at the end. -/
def clearRoot (resume : Bool) (target : Nat) (root : Option Nat) (children : List (List GNode)) : ClearOutcome :=
  match root with
  | none => { newRoot := none, unlinks := [], resetCalled := true }
  | some rid =>
    if resume then
      let s := resumeScan target rid children
      if s.found then { newRoot := some s.curRoot, unlinks := s.unlinks, resetCalled := true }
      else { newRoot := none, unlinks := s.unlinks ++ [s.curRoot], resetCalled := true }
    else { newRoot := none, unlinks := [rid], resetCalled := true }

end Tree

/-- The fold over children acting on first matches equals the fold of the
match body over the list of per-child first matches. -/
theorem resumeScan_filterMap (target : Nat) (children : List (List Tree.GNode)) (s : Tree.ScanState) :
    children.foldl (Tree.resumeChild target) s =
      (children.filterMap (Tree.firstMatch target)).foldl Tree.matchStep s := by
  induction children generalizing s with
  | nil => rfl
  | cons gs rest ih =>
    rw [List.foldl_cons]
    cases hfm : Tree.firstMatch target gs with
    | none =>
      rw [List.filterMap_cons_none hfm, Tree.resumeChild, hfm]
      exact ih s
    | some g =>
      rw [List.filterMap_cons_some hfm, List.foldl_cons, Tree.resumeChild, hfm]
      exact ih (Tree.matchStep s g)

/-- Folding the match body over a nonempty list of matches: the last match
becomes the current root, the found flag is set, and the unlink trace appends
the starting root followed by every superseded match. -/
theorem foldl_matchStep_spec (ms : List Tree.GNode) (s : Tree.ScanState) :
    ms.foldl Tree.matchStep s =
      match ms.getLast? with
      | none => s
      | some g =>
        { curRoot := g.nid
          found := true
          unlinks := s.unlinks ++ s.curRoot :: (ms.dropLast.map Tree.GNode.nid)
          setAsRootCalls := s.setAsRootCalls ++ ms.map Tree.GNode.nid } := by
  induction ms generalizing s with
  | nil => rfl
  | cons g rest ih =>
    rw [List.foldl_cons, ih (Tree.matchStep s g)]
    cases rest with
    | nil => simp [Tree.matchStep]
    | cons g2 rest2 =>
      have hne : (g2 :: rest2 : List Tree.GNode) ≠ [] := by simp
      simp only [List.getLast?_cons_cons, Tree.matchStep,
        List.dropLast_cons_of_ne_nil hne, List.map_cons, List.map]
      cases hlast : (g2 :: rest2 : List Tree.GNode).getLast? with
      | none => simp at hlast
      | some glast => simp

end Allie

namespace Allie

/-- The resume scan in terms of the per-child first matches: if no child has a
match the state is untouched, otherwise the last match of the last matching
child is the current root and the unlink trace lists the old root followed by
every superseded match. -/
theorem resumeScan_spec (target rid : Nat) (children : List (List Tree.GNode)) :
    Tree.resumeScan target rid children =
      match (children.filterMap (Tree.firstMatch target)).getLast? with
      | none => { curRoot := rid, found := false, unlinks := [], setAsRootCalls := [] }
      | some g =>
        { curRoot := g.nid
          found := true
          unlinks := rid :: ((children.filterMap (Tree.firstMatch target)).dropLast.map Tree.GNode.nid)
          setAsRootCalls := (children.filterMap (Tree.firstMatch target)).map Tree.GNode.nid } := by
  unfold Tree.resumeScan
  rw [resumeScan_filterMap, foldl_matchStep_spec]
  cases h : (children.filterMap (Tree.firstMatch target)).getLast? with
  | none => simp
  | some g => simp

/-- Characterization of clearRoot with resume enabled and an existing root:
the final root is the per-child first match of the last child having one (if
any), the unlink trace is the old root followed by every superseded match, and
resetNodes always runs. -/
theorem clearRoot_resume_spec (target rid : Nat) (children : List (List Tree.GNode)) :
    (Tree.clearRoot true target (some rid) children).newRoot =
      ((children.filterMap (Tree.firstMatch target)).getLast?).map Tree.GNode.nid ∧
    (Tree.clearRoot true target (some rid) children).unlinks =
      rid :: ((children.filterMap (Tree.firstMatch target)).dropLast.map Tree.GNode.nid) ∧
    (Tree.clearRoot true target (some rid) children).resetCalled = true := by
  have hscan := resumeScan_spec target rid children
  simp only [Tree.clearRoot, if_true, hscan]
  cases h : (children.filterMap (Tree.firstMatch target)).getLast? with
  | none =>
    have hnil : children.filterMap (Tree.firstMatch target) = [] := by
      cases hl : children.filterMap (Tree.firstMatch target) with
      | nil => rfl
      | cons a l => rw [hl] at h; simp at h
    simp [hnil]
  | some g => simp

end Allie

namespace Allie

/-- Claim C7: with resume enabled and an existing root, if some grandchild of
the old root has the current game position and is not a true terminal then a
matching grandchild becomes the new root and the old root is unlinked; if no
grandchild matches the root is dropped to empty (after unlinking the old
root); and in every case cache.resetNodes() is called. -/
theorem tree_clearRoot_resume (target rid : Nat) (children : List (List Tree.GNode)) :
    (Tree.clearRoot true target (some rid) children).resetCalled = true ∧
    ((∃ gs ∈ children, ∃ g ∈ gs, Tree.isResumeMatch target g = true) →
      rid ∈ (Tree.clearRoot true target (some rid) children).unlinks ∧
      ∃ g, (∃ gs ∈ children, g ∈ gs) ∧ Tree.isResumeMatch target g = true ∧
        (Tree.clearRoot true target (some rid) children).newRoot = some g.nid) ∧
    ((¬ ∃ gs ∈ children, ∃ g ∈ gs, Tree.isResumeMatch target g = true) →
      (Tree.clearRoot true target (some rid) children).newRoot = none ∧
      rid ∈ (Tree.clearRoot true target (some rid) children).unlinks) := by
  obtain ⟨h1, h2, h3⟩ := clearRoot_resume_spec target rid children
  refine ⟨h3, ?_, ?_⟩
  · rintro ⟨gs, hgs, g, hg, hm⟩
    have hne : children.filterMap (Tree.firstMatch target) ≠ [] := by
      intro hnil
      have hfm := List.filterMap_eq_nil_iff.mp hnil gs hgs
      have : (Tree.firstMatch target gs).isSome = true :=
        List.find?_isSome.mpr ⟨g, hg, hm⟩
      rw [hfm] at this
      exact Bool.false_ne_true this
    refine ⟨by rw [h2]; exact List.mem_cons_self _ _, ?_⟩
    have hlast := List.getLast?_eq_getLast (children.filterMap (Tree.firstMatch target)) hne
    have hmem : (children.filterMap (Tree.firstMatch target)).getLast hne ∈
        children.filterMap (Tree.firstMatch target) := List.getLast_mem hne
    obtain ⟨gs2, hgs2, hfm2⟩ := List.mem_filterMap.mp hmem
    refine ⟨(children.filterMap (Tree.firstMatch target)).getLast hne,
      ⟨gs2, hgs2, List.mem_of_find?_eq_some hfm2⟩, List.find?_some hfm2, ?_⟩
    rw [h1, hlast, Option.map_some']
  · intro hnone
    have hnil : children.filterMap (Tree.firstMatch target) = [] := by
      apply List.filterMap_eq_nil_iff.mpr
      intro gs hgs
      apply List.find?_eq_none.mpr
      intro g hg
      intro hm
      exact hnone ⟨gs, hgs, g, hg, hm⟩
    refine ⟨?_, by rw [h2]; exact List.mem_cons_self _ _⟩
    rw [h1, hnil]
    rfl

/-- Witness for C7: one child with one matching grandchild; the match becomes
the root and the old root is unlinked. -/
theorem tree_clearRoot_resume_witness :
    (∃ gs ∈ [[(⟨1, 7, false⟩ : Tree.GNode)]], ∃ g ∈ gs, Tree.isResumeMatch 7 g = true) ∧
    (0 ∈ (Tree.clearRoot true 7 (some 0) [[(⟨1, 7, false⟩ : Tree.GNode)]]).unlinks ∧
      ∃ g, (∃ gs ∈ [[(⟨1, 7, false⟩ : Tree.GNode)]], g ∈ gs) ∧ Tree.isResumeMatch 7 g = true ∧
        (Tree.clearRoot true 7 (some 0) [[(⟨1, 7, false⟩ : Tree.GNode)]]).newRoot = some g.nid) :=
  ⟨by decide, (tree_clearRoot_resume 7 0 [[(⟨1, 7, false⟩ : Tree.GNode)]]).2.1 (by decide)⟩

/-- Claim C10 counterexample: two matching grandchildren under the SAME child.
The inner loop breaks at the first one, so the final root is grandchild 1, not
the last matching grandchild in iteration order (grandchild 2), and unlinkNode
runs only on the old root 0. -/
theorem tree_clearRoot_multi_match_cex :
    Tree.isResumeMatch 7 (⟨1, 7, false⟩ : Tree.GNode) = true ∧
    Tree.isResumeMatch 7 (⟨2, 7, false⟩ : Tree.GNode) = true ∧
    (Tree.clearRoot true 7 (some 0)
      [[(⟨1, 7, false⟩ : Tree.GNode), (⟨2, 7, false⟩ : Tree.GNode)]]).newRoot = some 1 ∧
    (Tree.clearRoot true 7 (some 0)
      [[(⟨1, 7, false⟩ : Tree.GNode), (⟨2, 7, false⟩ : Tree.GNode)]]).newRoot ≠ some 2 ∧
    (Tree.clearRoot true 7 (some 0)
      [[(⟨1, 7, false⟩ : Tree.GNode), (⟨2, 7, false⟩ : Tree.GNode)]]).unlinks = [0] := by
  decide

/-- Claim C10 amended: per child only the FIRST matching grandchild is acted
on (the break leaves the inner loop only); across children a later match
supersedes the earlier one, with unlinkNode invoked on the previously selected
root each time. Hence the final root is the first matching grandchild of the
last child containing a match, and the unlink sequence is the old root
followed by every superseded match, in order. -/
theorem tree_clearRoot_last_child_match (target rid : Nat) (children : List (List Tree.GNode)) :
    (Tree.clearRoot true target (some rid) children).newRoot =
      ((children.filterMap (Tree.firstMatch target)).getLast?).map Tree.GNode.nid ∧
    (Tree.clearRoot true target (some rid) children).unlinks =
      rid :: ((children.filterMap (Tree.firstMatch target)).dropLast.map Tree.GNode.nid) :=
  ⟨(clearRoot_resume_spec target rid children).1,
    (clearRoot_resume_spec target rid children).2.1⟩

end Allie

namespace Allie

namespace Tree

/-- The slice of the Cache that Tree::embodiedRoot touches: the arena bump
pointer for nodes (newNode hands out the next slot), the hash-to-entry table
of NodePositions, and a bump counter naming freshly created entries. -/
structure CacheState where
  nextNodeId : Nat
  posTable : List (Nat × Nat)
  nextPosId : Nat
deriving DecidableEq, Repr

/-- Cache::containsNodePosition. -/
def CacheState.containsNodePosition (c : CacheState) (h : Nat) : Bool :=
  (c.posTable.lookup h).isSome

/-- Cache::nodePosition: lookup of the entry for a hash (only called when the
hash is present). -/
def CacheState.nodePosition (c : CacheState) (h : Nat) : Nat :=
  (c.posTable.lookup h).getD 0

/-- Cache::newNode: hand out the next arena slot. The Q_ASSERT in the caller
requires the allocation to succeed; exhaustion is outside the claims. -/
def CacheState.newNode (c : CacheState) : Nat × CacheState :=
  (c.nextNodeId, { c with nextNodeId := c.nextNodeId + 1 })

/-- Cache::newNodePosition: insert a fresh entry for the hash and return it. -/
def CacheState.newNodePosition (c : CacheState) (h : Nat) : Nat × CacheState :=
  (c.nextPosId, { c with posTable := (h, c.nextPosId) :: c.posTable, nextPosId := c.nextPosId + 1 })

/-- The root node as Tree::embodiedRoot leaves it: its arena slot, the
NodePosition entry it is bound to by setPosition, and whether initialize ran
on it. -/
structure RNode where
  nid : Nat
  posEntry : Nat
  isInit : Bool
deriving DecidableEq, Repr

/-- Result of Tree::embodiedRoot: the returned node, the m_root member
afterwards, and the cache afterwards. -/
structure EmbodyOutcome where
  ret : RNode
  root : Option RNode
  cache : CacheState
deriving DecidableEq, Repr

/-- Tree::embodiedRoot: return the existing root unchanged if there is one;
otherwise allocate a node from the arena, bind it to the NodePosition entry
for the current game position hash (reusing the cached entry when present,
creating one otherwise), initialize node and entry, and return it. -/
def embodiedRoot (gameHash : Nat) (root : Option RNode) (cache : CacheState) : EmbodyOutcome :=
  match root with
  | some r => { ret := r, root := some r, cache := cache }
  | none =>
    let n := cache.newNode
    let p := if n.2.containsNodePosition gameHash
             then (n.2.nodePosition gameHash, n.2)
             else n.2.newNodePosition gameHash
    let r : RNode := { nid := n.1, posEntry := p.1, isInit := true }
    { ret := r, root := some r, cache := p.2 }

end Tree

/-- Claim C8: embodiedRoot returns the existing root unchanged (allocating
nothing) when one exists; otherwise it returns a freshly allocated,
initialized node bound to the NodePosition entry for the current game
position, reusing the cached entry for that hash when present and creating
one otherwise; and m_root is always set to the returned node afterwards, so
it never returns null. -/
theorem tree_embodiedRoot_behavior (gameHash : Nat) (root : Option Tree.RNode) (cache : Tree.CacheState) :
    (Tree.embodiedRoot gameHash root cache).root = some (Tree.embodiedRoot gameHash root cache).ret ∧
    (∀ r, root = some r →
      Tree.embodiedRoot gameHash root cache = { ret := r, root := some r, cache := cache }) ∧
    (root = none →
      (Tree.embodiedRoot gameHash root cache).ret.nid = cache.nextNodeId ∧
      (Tree.embodiedRoot gameHash root cache).cache.nextNodeId = cache.nextNodeId + 1 ∧
      (Tree.embodiedRoot gameHash root cache).ret.isInit = true ∧
      (cache.containsNodePosition gameHash = true →
        (Tree.embodiedRoot gameHash root cache).ret.posEntry = cache.nodePosition gameHash ∧
        (Tree.embodiedRoot gameHash root cache).cache.posTable = cache.posTable) ∧
      (cache.containsNodePosition gameHash = false →
        (Tree.embodiedRoot gameHash root cache).ret.posEntry = cache.nextPosId ∧
        (Tree.embodiedRoot gameHash root cache).cache.posTable =
          (gameHash, cache.nextPosId) :: cache.posTable)) := by
  cases root with
  | some r =>
    refine ⟨rfl, ?_, ?_⟩
    · intro r2 hr2
      obtain rfl : r = r2 := Option.some.inj hr2
      rfl
    · intro h
      exact absurd h (by simp)
  | none =>
    refine ⟨rfl, ?_, fun _ => ?_⟩
    · intro r2 hr2
      exact absurd hr2 (by simp)
    · cases hl : cache.posTable.lookup gameHash with
      | some v =>
        simp [Tree.embodiedRoot, Tree.CacheState.newNode, Tree.CacheState.newNodePosition,
          Tree.CacheState.nodePosition, Tree.CacheState.containsNodePosition, hl]
      | none =>
        simp [Tree.embodiedRoot, Tree.CacheState.newNode, Tree.CacheState.newNodePosition,
          Tree.CacheState.nodePosition, Tree.CacheState.containsNodePosition, hl]

/-- Witness for C8: an empty tree and empty cache; the fresh root gets slot 0
bound to a newly created entry 0 for the game hash. -/
theorem tree_embodiedRoot_behavior_witness :
    (Tree.embodiedRoot 42 none ⟨0, [], 0⟩).ret.nid = (⟨0, [], 0⟩ : Tree.CacheState).nextNodeId ∧
    (Tree.embodiedRoot 42 none ⟨0, [], 0⟩).ret.isInit = true ∧
    (Tree.embodiedRoot 42 none ⟨0, [], 0⟩).ret.posEntry = (⟨0, [], 0⟩ : Tree.CacheState).nextPosId :=
  ⟨((tree_embodiedRoot_behavior 42 none ⟨0, [], 0⟩).2.2 rfl).1,
    ((tree_embodiedRoot_behavior 42 none ⟨0, [], 0⟩).2.2 rfl).2.2.1,
    (((tree_embodiedRoot_behavior 42 none ⟨0, [], 0⟩).2.2 rfl).2.2.2.2 (by decide)).1⟩

end Allie
